import Mathlib

/-!
# Verification of the AUD_CRISIS scoring / deduplication / clustering core

This development shallowly embeds the core pipeline of the repository
(analyzer.py, config.py, clustering.py, database.py) in Lean 4 and proves
properties of the embedded code.

Modelling conventions:
* Python floats are modelled as exact rationals.
* Python strings are modelled as Lean strings; the substring test
  of the Python in-operator is modelled by an explicit scanner over the
  character list; str.lower is modelled character-wise by Char.toLower.
* The re.findall scan for the concrete casualty pattern of analyzer.py is
  implemented as a left-to-right, non-overlapping scanner; because neither
  the whitespace class nor any alternation branch of the pattern can match
  a digit, the greedy backtracking of the Python engine collapses, for this
  particular pattern, to taking the maximal digit run (which must have
  length 1 to 4), the maximal whitespace run and then the first listed
  casualty term.  A fuel argument bounds the scan by the text length; every
  successful match consumes at least one character so the fuel never runs
  out on the initial call.
* Python round(x, 2) uses round-half-to-even; it is modelled exactly on
  rationals by roundHalfEven below.
-/

/-! ## String utilities -/

/-- Bool test: the first list is a prefix of the second (character lists). -/
def isPrefixL : List Char → List Char → Bool
  | [], _ => true
  | _ :: _, [] => false
  | a :: as, b :: bs => a == b && isPrefixL as bs

/-- Bool test for the Python in-operator on strings: the needle occurs as a
contiguous substring of the haystack. -/
def containsL (hay nee : List Char) : Bool :=
  isPrefixL nee hay ||
    match hay with
    | [] => false
    | _ :: t => containsL t nee

/-- str.lower as a character list (ASCII-faithful). -/
def lowerData (s : String) : List Char := s.data.map Char.toLower

/-! ## Rounding (Python round with 2 decimal digits) -/

/-- Round a rational to the nearest integer, ties to the even integer
(the rounding used by Python round on exact halves). -/
def roundHalfEven (q : ℚ) : ℤ :=
  let f := ⌊q⌋
  let r := q - (f : ℚ)
  if r < 1 / 2 then f
  else if 1 / 2 < r then f + 1
  else if f % 2 = 0 then f else f + 1

/-- Python round(x, 2) on exact rationals. -/
def round2 (q : ℚ) : ℚ := (roundHalfEven (q * 100) : ℚ) / 100

/-! ## config.py : keyword tables -/

/-- EVENT_CATEGORIES of config.py, in declaration order. -/
def EVENT_CATEGORIES : List (String × List String) :=
  [("Earthquake", ["earthquake", "aftershock", "tremor", "seismic", "magnitude", "richter"]),
   ("Flood", ["flood", "flooding", "inundation", "overflow", "submerged"]),
   ("Fire", ["fire", "wildfire", "blaze", "burning"]),
   ("Explosion", ["explosion", "blast", "detonation", "explosive"]),
   ("Shooting", ["shooting", "gunman", "shots fired", "firearm"]),
   ("Terrorism", ["terrorist attack", "suicide bombing", "terror", "extremist"]),
   ("War", ["civil war", "conflict", "battle", "fighting", "invasion"]),
   ("Epidemic", ["epidemic", "pandemic", "outbreak", "virus", "disease"]),
   ("Hurricane", ["hurricane", "typhoon", "cyclone", "storm"]),
   ("Cyber", ["cyberattack", "hack", "data breach", "ransomware"]),
   ("Protest", ["riot", "violent protest", "clash", "demonstration"]),
   ("Kidnapping", ["kidnapping", "hostage", "abduction"]),
   ("AirCrash", ["plane crash", "aircraft crash", "aviation accident", "airliner",
                 "flight crash", "crashed shortly after takeoff", "helicopter crash"])]

/-- SEVERITY_WEIGHTS of config.py, in declaration order. -/
def SEVERITY_WEIGHTS : List (String × ℚ) :=
  [("tsunami", 10), ("nuclear", 10), ("genocide", 10), ("massacre", 10),
   ("terrorist attack", 10), ("suicide bombing", 10),
   ("earthquake", 8), ("explosion", 8), ("wildfire", 8), ("hurricane", 8),
   ("flood", 7), ("landslide", 7), ("air crash", 9), ("plane crash", 9),
   ("dead", 3), ("killed", 3), ("fatal", 3), ("injured", 2), ("casualties", 3),
   ("missing", 3), ("evacuation", 4), ("collapsed", 4), ("destroyed", 4),
   ("massive", 2), ("catastrophic", 3), ("emergency", 3), ("state of emergency", 4),
   ("thousands", 3), ("millions", 5), ("critical", 3), ("urgent", 2)]

/-- CONTEXT_KEYWORDS of config.py, in declaration order. -/
def CONTEXT_KEYWORDS : List (String × ℚ) :=
  [("catastrophic", 3), ("deadly", 3), ("state of emergency", 4),
   ("thousands", 3), ("millions", 5), ("minor", -2), ("small", -2),
   ("no casualties", -3)]

/-- ANALYZER_SEVERITY_THRESHOLD of config.py. -/
def ANALYZER_SEVERITY_THRESHOLD : ℚ := 4

/-- The flattened category keyword lexicon used by compute_severity
(the list comprehension over EVENT_CATEGORIES.values() in source order). -/
def flatCategoryKeywords : List String :=
  (EVENT_CATEGORIES.map Prod.snd).flatten

/-! ## analyzer.py : the casualty regex scan of compute_severity -/

/-- Alternation branches of the casualty pattern of compute_severity,
in source order. -/
def casualtyTerms : List String :=
  ["dead", "killed", "ofiar", "zabitych", "rann", "poszkodowanych",
   "casualties", "injured"]

/-- Numeric value of a digit run. -/
def natOfDigits (ds : List Char) : Nat :=
  ds.foldl (fun a c => 10 * a + (c.toNat - 48)) 0

/-- One attempted match of the casualty pattern at the head of the text.
Returns the captured integer together with the number of characters the
match consumes.  The digit run must have length 1 to 4 (a longer run makes
every backtracking branch of the Python engine fail at this position,
because the character after the digits would have to be matched by the
whitespace class or by a casualty term, and both reject digits). -/
def tryVictimMatch (cs : List Char) : Option (Nat × Nat) :=
  let ds := cs.takeWhile Char.isDigit
  if ds.length = 0 ∨ 4 < ds.length then none
  else
    let afterDs := cs.drop ds.length
    let ws := afterDs.takeWhile Char.isWhitespace
    let afterWs := afterDs.drop ws.length
    match casualtyTerms.find? (fun t => isPrefixL t.data afterWs) with
    | some t => some (natOfDigits ds, ds.length + ws.length + t.data.length)
    | none => none

/-- Fueled left-to-right non-overlapping scan, as re.findall performs it;
each successful match consumes at least one character, so fuel equal to the
length of the text is always sufficient. -/
def scanVictimsF : Nat → List Char → List Nat
  | 0, _ => []
  | _, [] => []
  | fuel + 1, c :: rest =>
    match tryVictimMatch (c :: rest) with
    | some (n, k) => n :: scanVictimsF fuel ((c :: rest).drop k)
    | none => scanVictimsF fuel rest

/-- All integers captured by the casualty pattern over the text, in order. -/
def scanVictims (cs : List Char) : List Nat := scanVictimsF cs.length cs

/-- The numeric-range table applied to one captured casualty count in
compute_severity. -/
def victimDelta (n : Nat) : ℚ :=
  if 100 ≤ n then 8 else if 20 ≤ n then 5 else if 5 ≤ n then 3 else 0

/-! ## analyzer.py : compute_severity -/

/-- compute_severity of analyzer.py: lower-case title and text, accumulate
severity-table weights, context-modifier weights, the +2 title bonus for
flattened category keywords, and the casualty deltas, then multiply by the
source weight and round to 2 decimal digits. -/
def computeSeverity (title text : String) (sourceWeight : ℚ) : ℚ :=
  let titleL := lowerData title
  let textL := lowerData text
  let score1 := SEVERITY_WEIGHTS.foldl
    (fun s p => if containsL textL p.1.data then s + p.2 else s) 0
  let score2 := CONTEXT_KEYWORDS.foldl
    (fun s p => if containsL textL p.1.data then s + p.2 else s) score1
  let score3 :=
    if flatCategoryKeywords.any (fun kw => containsL titleL kw.data) then score2 + 2
    else score2
  let score4 := (scanVictims textL).foldl (fun s n => s + victimDelta n) score3
  round2 (score4 * sourceWeight)

/-! Spec-side decompositions of the same quantities. -/

/-- Sum of the severity-weight-table weights whose keyword occurs as a
substring of the (already lower-cased) text; each table entry contributes
at most once. -/
def severityKeywordSum (textL : List Char) : ℚ :=
  ((SEVERITY_WEIGHTS.filter (fun p => containsL textL p.1.data)).map
    (fun p => p.2)).sum

/-- Sum of the context-modifier-table weights whose keyword occurs in the
(already lower-cased) text. -/
def contextModifierSum (textL : List Char) : ℚ :=
  ((CONTEXT_KEYWORDS.filter (fun p => containsL textL p.1.data)).map
    (fun p => p.2)).sum

/-- The +2 title bonus: 2 if any flattened category-lexicon keyword occurs
in the (already lower-cased) title, else 0. -/
def titleBonus (titleL : List Char) : ℚ :=
  if flatCategoryKeywords.any (fun kw => containsL titleL kw.data) then 2 else 0

/-- Total casualty delta of the (already lower-cased) text: the sum, over
all matches of the casualty pattern, of the numeric-range deltas. -/
def casualtySum (textL : List Char) : ℚ :=
  ((scanVictims textL).map victimDelta).sum

/-! ## Generic fold-to-sum lemmas -/

lemma foldl_if_add_eq_sum (l : List (String × ℚ)) (cond : String × ℚ → Bool) :
    ∀ a : ℚ, l.foldl (fun s p => if cond p then s + p.2 else s) a
      = a + ((l.filter cond).map (fun p => p.2)).sum := by
  induction l with
  | nil => intro a; simp
  | cons p t ih =>
    intro a
    by_cases h : cond p
    · simp only [List.foldl_cons, List.filter_cons, h, if_pos, ih]
      simp [add_assoc]
    · simp only [List.foldl_cons, List.filter_cons, h, if_neg, ih]
      simp [h]

lemma foldl_add_delta_eq_sum (l : List Nat) :
    ∀ a : ℚ, l.foldl (fun s n => s + victimDelta n) a
      = a + (l.map victimDelta).sum := by
  induction l with
  | nil => intro a; simp
  | cons n t ih => intro a; simp [ih, add_assoc]

/-- Decomposition of compute_severity into the four spec-side sums.  This is
the shared helper; the claim theorems build on it. -/
lemma computeSeverity_decomp (title text : String) (w : ℚ) :
    computeSeverity title text w
      = round2 ((severityKeywordSum (lowerData text)
          + contextModifierSum (lowerData text)
          + titleBonus (lowerData title)
          + casualtySum (lowerData text)) * w) := by
  unfold computeSeverity severityKeywordSum contextModifierSum titleBonus casualtySum
  simp only [foldl_if_add_eq_sum, foldl_add_delta_eq_sum]
  by_cases h : (flatCategoryKeywords.any (fun kw => containsL (lowerData title) kw.data)) = true
  · rw [if_pos h, if_pos h]
    ring_nf
  · rw [if_neg h, if_neg h]
    ring_nf

/-- C1: for every title, text and source weight, compute_severity returns
round((W + C + B + V) * source_weight, 2), where W sums the
severity-weight-table keywords found as substrings of the lower-cased text
(each at most once), C sums the context-modifier-table keywords found in
the lower-cased text (modifiers may be negative), B is +2 exactly when some
flattened category-lexicon keyword occurs in the lower-cased title, and V
is the total casualty delta; the source weight is a pure multiplier, never
clipped. -/
theorem compute_severity_decomposition (title text : String) (w : ℚ) :
    computeSeverity title text w
      = round2 ((severityKeywordSum (lowerData text)
          + contextModifierSum (lowerData text)
          + titleBonus (lowerData title)
          + casualtySum (lowerData text)) * w) :=
  computeSeverity_decomp title text w

/-! ## Concrete evaluations of the casualty scanner -/

lemma scan_150 : scanVictims (lowerData "150 killed") = [150] := by decide

lemma scan_50 : scanVictims (lowerData "50 killed") = [50] := by decide

lemma scan_3 : scanVictims (lowerData "3 killed") = [3] := by decide

lemma scan_abc : scanVictims (lowerData "abc killed") = [] := by decide

lemma scan_two : scanVictims (lowerData "30 dead and 150 killed") = [30, 150] := by decide

lemma scan_5 : scanVictims (lowerData "5 killed") = [5] := by decide

lemma scan_wounded : scanVictims (lowerData "100 wounded") = [] := by decide

lemma scan_people : scanVictims (lowerData "7 people killed") = [] := by decide

/-- C2 counterexample: three points where the claim, as stated, fails on
the code.  The integer 3 is not at least 5, so the range table of the
source maps the match of 3 killed to delta 0, not to the +3 the claim
asserts; wounded is not an alternation branch of the pattern of analyzer.py
(the branches are dead, killed, ofiar, zabitych, rann, poszkodowanych,
casualties, injured), so 100 wounded yields no match and delta 0 rather
than +8; and the pattern allows only whitespace between the integer and
the casualty term, so 7 people killed, where the term follows within a few
words but not immediately, yields no match and delta 0 rather than +3. -/
theorem casualty_extraction_claim_false :
    casualtySum (lowerData "3 killed") = 0
  ∧ ¬ casualtySum (lowerData "3 killed") = 3
  ∧ casualtySum (lowerData "100 wounded") = 0
  ∧ casualtySum (lowerData "7 people killed") = 0 := by
  have h3 : casualtySum (lowerData "3 killed") = 0 := by
    unfold casualtySum; rw [scan_3]; norm_num [victimDelta]
  refine ⟨h3, by rw [h3]; norm_num, ?_, ?_⟩
  · unfold casualtySum; rw [scan_wounded]; simp
  · unfold casualtySum; rw [scan_people]; simp

/-- C2 as amended: the casualty extraction of compute_severity maps every
match of the casualty pattern (an integer of 1 to 4 digits immediately
followed, after optional whitespace only, by one of the casualty terms
dead / killed / ofiar / zabitych / rann / poszkodowanych / casualties /
injured) to a delta by the range table 100 or more gives 8, 20 or more
gives 5, 5 or more gives 3, else 0; matches contribute independently (the
accumulated contribution is the plain sum of the per-match deltas);
concretely 150 killed contributes 8, 50 killed contributes 5, 5 killed
contributes 3, 3 killed contributes 0, a malformed integer as in abc
killed produces no match, contributes 0 and cannot raise (the embedded
scanner is total and captured digit runs always parse); two matches in one
text add up.  The last two conjuncts evaluate compute_severity itself:
with source weight 1, abc killed scores only the keyword weight 3 of
killed, while 150 killed scores 3 + 8. -/
theorem casualty_extraction_spec :
    (∀ (a : ℚ) (ns : List Nat),
        ns.foldl (fun s n => s + victimDelta n) a = a + (ns.map victimDelta).sum)
  ∧ (∀ n : Nat, victimDelta n
        = if 100 ≤ n then 8 else if 20 ≤ n then 5 else if 5 ≤ n then 3 else 0)
  ∧ scanVictims (lowerData "150 killed") = [150]
  ∧ casualtySum (lowerData "150 killed") = 8
  ∧ scanVictims (lowerData "50 killed") = [50]
  ∧ casualtySum (lowerData "50 killed") = 5
  ∧ scanVictims (lowerData "5 killed") = [5]
  ∧ casualtySum (lowerData "5 killed") = 3
  ∧ scanVictims (lowerData "abc killed") = []
  ∧ casualtySum (lowerData "abc killed") = 0
  ∧ scanVictims (lowerData "30 dead and 150 killed") = [30, 150]
  ∧ casualtySum (lowerData "30 dead and 150 killed") = 13
  ∧ computeSeverity "" "abc killed" 1 = 3
  ∧ computeSeverity "" "150 killed" 1 = 11 := by
  refine ⟨fun a ns => foldl_add_delta_eq_sum ns a, fun n => rfl,
    scan_150, ?_, scan_50, ?_, scan_5, ?_, scan_abc, ?_, scan_two, ?_, ?_, ?_⟩
  · unfold casualtySum; rw [scan_150]; norm_num [victimDelta]
  · unfold casualtySum; rw [scan_50]; norm_num [victimDelta]
  · unfold casualtySum; rw [scan_5]; norm_num [victimDelta]
  · unfold casualtySum; rw [scan_abc]; simp
  · unfold casualtySum; rw [scan_two]; norm_num [victimDelta]
  · rw [computeSeverity_decomp]
    have hW : severityKeywordSum (lowerData "abc killed") = 3 := by
      unfold severityKeywordSum
      rw [show SEVERITY_WEIGHTS.filter
          (fun p => containsL (lowerData "abc killed") p.1.data)
          = [("killed", (3 : ℚ))] from rfl]
      norm_num
    have hC : contextModifierSum (lowerData "abc killed") = 0 := by
      unfold contextModifierSum
      rw [show CONTEXT_KEYWORDS.filter
          (fun p => containsL (lowerData "abc killed") p.1.data) = [] from rfl]
      norm_num
    have hB : titleBonus (lowerData "") = 0 := by
      unfold titleBonus
      rw [show (flatCategoryKeywords.any
          (fun kw => containsL (lowerData "") kw.data)) = false from rfl]
      norm_num
    have hV : casualtySum (lowerData "abc killed") = 0 := by
      unfold casualtySum; rw [scan_abc]; simp
    rw [hW, hC, hB, hV]
    norm_num [round2, roundHalfEven]
  · rw [computeSeverity_decomp]
    have hW : severityKeywordSum (lowerData "150 killed") = 3 := by
      unfold severityKeywordSum
      rw [show SEVERITY_WEIGHTS.filter
          (fun p => containsL (lowerData "150 killed") p.1.data)
          = [("killed", (3 : ℚ))] from rfl]
      norm_num
    have hC : contextModifierSum (lowerData "150 killed") = 0 := by
      unfold contextModifierSum
      rw [show CONTEXT_KEYWORDS.filter
          (fun p => containsL (lowerData "150 killed") p.1.data) = [] from rfl]
      norm_num
    have hB : titleBonus (lowerData "") = 0 := by
      unfold titleBonus
      rw [show (flatCategoryKeywords.any
          (fun kw => containsL (lowerData "") kw.data)) = false from rfl]
      norm_num
    have hV : casualtySum (lowerData "150 killed") = 8 := by
      unfold casualtySum; rw [scan_150]; norm_num [victimDelta]
    rw [hW, hC, hB, hV]
    norm_num [round2, roundHalfEven]

/-! ## Nonnegativity of the score when no negative modifier matches -/

lemma roundHalfEven_nonneg (q : ℚ) (h : 0 ≤ q) : 0 ≤ roundHalfEven q := by
  have hf : (0 : ℤ) ≤ ⌊q⌋ := Int.floor_nonneg.mpr h
  simp only [roundHalfEven]
  split_ifs <;> omega

lemma round2_nonneg (q : ℚ) (h : 0 ≤ q) : 0 ≤ round2 q := by
  unfold round2
  have h1 : 0 ≤ roundHalfEven (q * 100) :=
    roundHalfEven_nonneg _ (mul_nonneg h (by norm_num))
  have h2 : (0 : ℚ) ≤ (roundHalfEven (q * 100) : ℚ) := by exact_mod_cast h1
  positivity

lemma severityKeywordSum_nonneg (textL : List Char) :
    0 ≤ severityKeywordSum textL := by
  apply List.sum_nonneg
  intro x hx
  simp only [severityKeywordSum, List.mem_map, List.mem_filter] at hx
  obtain ⟨p, ⟨hpmem, _⟩, rfl⟩ := hx
  have hall : ∀ p ∈ SEVERITY_WEIGHTS, (0 : ℚ) ≤ p.2 := by decide
  exact hall p hpmem

lemma titleBonus_nonneg (titleL : List Char) : 0 ≤ titleBonus titleL := by
  unfold titleBonus
  split_ifs <;> norm_num

lemma victimDelta_nonneg (n : Nat) : 0 ≤ victimDelta n := by
  unfold victimDelta
  split_ifs <;> norm_num

lemma casualtySum_nonneg (textL : List Char) : 0 ≤ casualtySum textL := by
  apply List.sum_nonneg
  intro x hx
  simp only [List.mem_map] at hx
  obtain ⟨n, _, rfl⟩ := hx
  exact victimDelta_nonneg n

/-- C8: whenever no negative context modifier occurs in the lower-cased
text (the negative table entries are minor, small and no casualties), and
the source weight is positive, compute_severity is nonnegative; and the
text minor, containing only a modifier of weight -2 and no other signal,
scores exactly -2 with an empty title and weight 1, a non-positive value. -/
theorem compute_severity_nonneg :
    (∀ (title text : String) (w : ℚ),
        (∀ p ∈ CONTEXT_KEYWORDS, p.2 < 0 → containsL (lowerData text) p.1.data = false) →
        0 < w → 0 ≤ computeSeverity title text w)
  ∧ computeSeverity "" "minor" 1 = -2
  ∧ computeSeverity "" "minor" 1 ≤ 0 := by
  have hminor : computeSeverity "" "minor" 1 = -2 := by
    rw [computeSeverity_decomp]
    have hW : severityKeywordSum (lowerData "minor") = 0 := by
      unfold severityKeywordSum
      rw [show SEVERITY_WEIGHTS.filter
          (fun p => containsL (lowerData "minor") p.1.data) = [] from rfl]
      norm_num
    have hC : contextModifierSum (lowerData "minor") = -2 := by
      unfold contextModifierSum
      rw [show CONTEXT_KEYWORDS.filter
          (fun p => containsL (lowerData "minor") p.1.data)
          = [("minor", (-2 : ℚ))] from rfl]
      norm_num
    have hB : titleBonus (lowerData "") = 0 := by
      unfold titleBonus
      rw [show (flatCategoryKeywords.any
          (fun kw => containsL (lowerData "") kw.data)) = false from rfl]
      norm_num
    have hV : casualtySum (lowerData "minor") = 0 := by
      unfold casualtySum
      rw [show scanVictims (lowerData "minor") = [] from by decide]
      simp
    rw [hW, hC, hB, hV]
    norm_num [round2, roundHalfEven]
  refine ⟨?_, hminor, by rw [hminor]; norm_num⟩
  intro title text w hneg hw
  rw [computeSeverity_decomp]
  apply round2_nonneg
  apply mul_nonneg _ hw.le
  have hC : 0 ≤ contextModifierSum (lowerData text) := by
    apply List.sum_nonneg
    intro x hx
    simp only [contextModifierSum, List.mem_map, List.mem_filter] at hx
    obtain ⟨p, ⟨hpmem, hpcond⟩, rfl⟩ := hx
    by_contra hlt
    push_neg at hlt
    have hfalse := hneg p hpmem hlt
    rw [hfalse] at hpcond
    exact Bool.false_ne_true hpcond
  have hW := severityKeywordSum_nonneg (lowerData text)
  have hB := titleBonus_nonneg (lowerData title)
  have hV := casualtySum_nonneg (lowerData text)
  linarith

/-- Witness for C8 at a concrete input: the text hello contains no negative
context modifier, so with weight 1 the severity is nonnegative. -/
theorem compute_severity_nonneg_witness :
    0 ≤ computeSeverity "a title" "hello" 1 := by
  apply compute_severity_nonneg.1 "a title" "hello" 1
  · intro p hp hlt
    fin_cases hp <;> rfl
  · norm_num

/-! ## analyzer.py : detect_category -/

/-- The per-category containment counts computed by detect_category: for
every category, in declaration order, the number of its keywords occurring
as substrings of the lower-cased text. -/
def catScores (text : String) : List (String × Nat) :=
  EVENT_CATEGORIES.map
    (fun p => (p.1, (p.2.filter (fun kw => containsL (lowerData text) kw.data)).length))

/-- Python max(scores, key=scores.get) over insertion order: the running
best is replaced only on a strictly greater value, so the first key
achieving the maximum wins. -/
def maxByFirst (acc : String × Nat) : List (String × Nat) → String × Nat
  | [] => acc
  | p :: ps => maxByFirst (if acc.2 < p.2 then p else acc) ps

/-- detect_category of analyzer.py: the category with the highest keyword
containment count (first declared wins ties), or General when the best
count is zero. -/
def detectCategory (text : String) : String :=
  match catScores text with
  | [] => "General"
  | s :: ss =>
    let best := maxByFirst s ss
    if best.2 = 0 then "General" else best.1


lemma head_le_of_decomp {x b : String × Nat} {xs pre suf : List (String × Nat)}
    (hdec : x :: xs = pre ++ b :: suf) (hpre : ∀ p ∈ pre, p.2 < b.2) :
    x.2 ≤ b.2 := by
  cases pre with
  | nil =>
    have hx : x = b := by
      simp only [List.nil_append, List.cons.injEq] at hdec
      exact hdec.1
    rw [hx]
  | cons q0 pre0 =>
    have hx : x = q0 := by
      simp only [List.cons_append, List.cons.injEq] at hdec
      exact hdec.1
    rw [hx]
    exact le_of_lt (hpre q0 (List.mem_cons_self q0 pre0))

lemma maxByFirst_spec :
    ∀ (ss : List (String × Nat)) (acc : String × Nat),
    ∃ pre suf, acc :: ss = pre ++ maxByFirst acc ss :: suf
      ∧ (∀ p ∈ pre, p.2 < (maxByFirst acc ss).2)
      ∧ (∀ p ∈ suf, p.2 ≤ (maxByFirst acc ss).2) := by
  intro ss
  induction ss with
  | nil =>
    intro acc
    exact ⟨[], [], rfl, by simp, by simp⟩
  | cons p ps ih =>
    intro acc
    by_cases h : acc.2 < p.2
    · obtain ⟨pre, suf, hdec, hpre, hsuf⟩ := ih p
      have hstep : maxByFirst acc (p :: ps) = maxByFirst p ps := by
        simp [maxByFirst, h]
      rw [hstep]
      refine ⟨acc :: pre, suf, ?_, ?_, hsuf⟩
      · rw [List.cons_append]
        exact congrArg (acc :: ·) hdec
      · intro q hq
        rcases List.mem_cons.mp hq with hq | hq
        · subst hq
          exact lt_of_lt_of_le h (head_le_of_decomp hdec hpre)
        · exact hpre q hq
    · obtain ⟨pre, suf, hdec, hpre, hsuf⟩ := ih acc
      have hstep : maxByFirst acc (p :: ps) = maxByFirst acc ps := by
        simp [maxByFirst, h]
      rw [hstep]
      have hple : p.2 ≤ acc.2 := le_of_not_lt h
      cases pre with
      | nil =>
        have hacc : acc = maxByFirst acc ps := by
          simp only [List.nil_append, List.cons.injEq] at hdec
          exact hdec.1
        have hsufeq : ps = suf := by
          simp only [List.nil_append, List.cons.injEq] at hdec
          exact hdec.2
        refine ⟨[], p :: ps, by rw [← hacc]; rfl, by simp, ?_⟩
        intro q hq
        rcases List.mem_cons.mp hq with hq | hq
        · subst hq
          exact hple.trans (le_of_eq (congrArg Prod.snd hacc))
        · exact hsuf q (hsufeq ▸ hq)
      | cons q0 pre0 =>
        have hq0 : acc = q0 := by
          simp only [List.cons_append, List.cons.injEq] at hdec
          exact hdec.1
        have hps : ps = pre0 ++ maxByFirst acc ps :: suf := by
          simp only [List.cons_append, List.cons.injEq] at hdec
          exact hdec.2
        have haccb : acc.2 < (maxByFirst acc ps).2 :=
          hq0 ▸ hpre q0 (List.mem_cons_self q0 pre0)
        refine ⟨acc :: p :: pre0, suf, ?_, ?_, hsuf⟩
        · rw [List.cons_append, List.cons_append]
          exact congrArg (acc :: ·) (congrArg (p :: ·) hps)
        · intro q hq
          rcases List.mem_cons.mp hq with hq | hq
          · subst hq; exact haccb
          rcases List.mem_cons.mp hq with hq | hq
          · subst hq; exact lt_of_le_of_lt hple haccb
          · exact hpre q (hq0 ▸ List.mem_cons_of_mem q0 hq)

/-- C5: detect_category returns the category whose keyword list has the
highest substring-containment count in the lower-cased text; the counts are
listed, in lexicon declaration order, by catScores; on ties the
first-declared category wins (every earlier category counts strictly less,
every later one at most as much); when every category has zero matches,
which includes empty or whitespace-only text, it returns General. -/
theorem detect_category_spec (text : String) :
    ((∀ p ∈ catScores text, p.2 = 0) → detectCategory text = "General")
  ∧ ((∃ p ∈ catScores text, 0 < p.2) →
      ∃ pre c n suf, catScores text = pre ++ (c, n) :: suf
        ∧ detectCategory text = c
        ∧ 0 < n
        ∧ (∀ p ∈ pre, p.2 < n)
        ∧ (∀ p ∈ suf, p.2 ≤ n)) := by
  constructor
  · intro hall
    unfold detectCategory
    cases hcs : catScores text with
    | nil => rfl
    | cons s ss =>
      obtain ⟨pre, suf, hdec, _, _⟩ := maxByFirst_spec ss s
      have hmem : maxByFirst s ss ∈ s :: ss := by
        rw [hdec]
        exact List.mem_append_right _ (List.mem_cons_self _ _)
      have hzero : (maxByFirst s ss).2 = 0 := by
        apply hall
        rw [hcs]
        exact hmem
      simp [hzero]
  · intro ⟨q, hqmem, hqpos⟩
    unfold detectCategory
    cases hcs : catScores text with
    | nil =>
      rw [hcs] at hqmem
      exact absurd hqmem (List.not_mem_nil q)
    | cons s ss =>
      obtain ⟨pre, suf, hdec, hpre, hsuf⟩ := maxByFirst_spec ss s
      have hqmem2 : q ∈ s :: ss := by rw [← hcs]; exact hqmem
      have hbestpos : 0 < (maxByFirst s ss).2 := by
        rw [hdec] at hqmem2
        rcases List.mem_append.mp hqmem2 with hq | hq
        · exact lt_trans hqpos (hpre q hq)
        · rcases List.mem_cons.mp hq with hq | hq
          · subst hq; exact hqpos
          · exact lt_of_lt_of_le hqpos (hsuf q hq)
      refine ⟨pre, (maxByFirst s ss).1, (maxByFirst s ss).2, suf, ?_, ?_, hbestpos, hpre, hsuf⟩
      · exact hdec
      · simp [Nat.pos_iff_ne_zero.mp hbestpos]

/-- Witness for C5: a text matching no category keyword is categorised as
General. -/
theorem detect_category_spec_witness : detectCategory "zzzz" = "General" :=
  (detect_category_spec "zzzz").1 (by decide)

/-! ## clustering.py : events and the same-event heuristic

A row of the clustering DataFrame, with the fields is_same_event and
titles_share_event read: Title, Location, Category, EventKeywords and
Published.  The pandas timestamp is modelled as an integer number of
seconds, so the default window timedelta(hours=1) is 3600. -/

structure Event where
  title : String
  location : String
  category : String
  eventKeywords : List String
  published : ℤ
  deriving DecidableEq, Inhabited

/-- CORE_EVENT_KEYWORDS of clustering.py. -/
def CORE_EVENT_KEYWORDS : List String :=
  ["plane crash", "aircraft crash", "earthquake", "flood", "explosion",
   "wildfire", "hurricane", "pandemic"]

/-- jaccard of clustering.py: similarity of two keyword lists viewed as
sets; zero when either set is empty. -/
def jaccard (a b : List String) : ℚ :=
  let A := a.toFinset
  let B := b.toFinset
  if A = ∅ ∨ B = ∅ then 0
  else ((A ∩ B).card : ℚ) / ((A ∪ B).card : ℚ)

/-- titles_share_event of clustering.py: some keyword shared by both
events and belonging to the core set occurs in both lower-cased titles.
Set intersection over the keyword lists is modelled by membership filters;
the any-test is insensitive to duplication and iteration order, so the
Boolean agrees with the Python iteration over the set object. -/
def titlesShareEvent (e1 e2 : Event) : Bool :=
  let t1 := lowerData e1.title
  let t2 := lowerData e2.title
  let shared := e1.eventKeywords.filter (fun kw => decide (kw ∈ e2.eventKeywords))
  let sharedCore := shared.filter (fun kw => decide (kw ∈ CORE_EVENT_KEYWORDS))
  sharedCore.any (fun kw => containsL t1 kw.data && containsL t2 kw.data)

/-- is_same_event of clustering.py with explicit parameters (the source
defaults are min_kw_sim = 0.4 and max_time_diff = one hour). -/
def isSameEvent (e1 e2 : Event) (minKwSim : ℚ) (maxTimeDiff : ℤ) : Bool :=
  if (e1.location ≠ "Unknown" ∧ e2.location ≠ "Unknown" ∧ e1.location ≠ e2.location)
      ∧ titlesShareEvent e1 e2 = false then false
  else if e1.category ≠ e2.category then false
  else if jaccard e1.eventKeywords e2.eventKeywords < minKwSim then false
  else if maxTimeDiff < |e1.published - e2.published| then false
  else true

/-- is_same_event at its default parameters, as called by cluster_events. -/
def isSameEventD (e1 e2 : Event) : Bool :=
  isSameEvent e1 e2 (2 / 5) 3600

/-- The location-gate clause of the claim: whenever both locations are
known (neither is the sentinel Unknown) and unequal, the override must
fire, meaning the intersection of the keyword sets restricted to the core
phrases is non-empty and some shared core phrase occurs in both lower-cased
titles. -/
def locationGateProp (e1 e2 : Event) : Prop :=
  e1.location ≠ "Unknown" → e2.location ≠ "Unknown" → e1.location ≠ e2.location →
    ((∃ kw, kw ∈ e1.eventKeywords ∧ kw ∈ e2.eventKeywords ∧ kw ∈ CORE_EVENT_KEYWORDS)
      ∧ (∃ kw, kw ∈ e1.eventKeywords ∧ kw ∈ e2.eventKeywords ∧ kw ∈ CORE_EVENT_KEYWORDS
          ∧ containsL (lowerData e1.title) kw.data = true
          ∧ containsL (lowerData e2.title) kw.data = true))

lemma titlesShareEvent_iff (e1 e2 : Event) :
    titlesShareEvent e1 e2 = true
      ↔ ∃ kw, kw ∈ e1.eventKeywords ∧ kw ∈ e2.eventKeywords
          ∧ kw ∈ CORE_EVENT_KEYWORDS
          ∧ containsL (lowerData e1.title) kw.data = true
          ∧ containsL (lowerData e2.title) kw.data = true := by
  unfold titlesShareEvent
  simp only [List.any_eq_true, List.mem_filter, decide_eq_true_eq, Bool.and_eq_true]
  constructor
  · rintro ⟨kw, ⟨⟨h1, h2⟩, h3⟩, h4, h5⟩
    exact ⟨kw, h1, h2, h3, h4, h5⟩
  · rintro ⟨kw, h1, h2, h3, h4, h5⟩
    exact ⟨kw, ⟨⟨h1, h2⟩, h3⟩, h4, h5⟩

/-- Shared helper: the gate characterisation of is_same_event. -/
lemma isSameEvent_true_iff (e1 e2 : Event) (m : ℚ) (d : ℤ) :
    isSameEvent e1 e2 m d = true ↔
      (locationGateProp e1 e2
        ∧ e1.category = e2.category
        ∧ m ≤ jaccard e1.eventKeywords e2.eventKeywords
        ∧ |e1.published - e2.published| ≤ d) := by
  unfold isSameEvent
  split_ifs with h1 h2 h3 h4
  · refine iff_of_false (by simp) ?_
    rintro ⟨hloc, -, -, -⟩
    obtain ⟨⟨hk1, hk2, hk3⟩, hshare⟩ := h1
    obtain ⟨-, hover⟩ := hloc hk1 hk2 hk3
    have htrue := (titlesShareEvent_iff e1 e2).mpr hover
    rw [hshare] at htrue
    exact absurd htrue (by decide)
  · refine iff_of_false (by simp) ?_
    rintro ⟨-, hcat, -, -⟩
    exact h2 hcat
  · refine iff_of_false (by simp) ?_
    rintro ⟨-, -, hkw, -⟩
    exact absurd hkw (not_le.mpr h3)
  · refine iff_of_false (by simp) ?_
    rintro ⟨-, -, -, htime⟩
    exact absurd htime (not_le.mpr h4)
  · constructor
    · intro _
      refine ⟨?_, not_not.mp h2, not_lt.mp h3, not_lt.mp h4⟩
      intro hk1 hk2 hk3
      have htrue : titlesShareEvent e1 e2 = true := by
        rcases Bool.eq_false_or_eq_true (titlesShareEvent e1 e2) with ht | hf
        · exact ht
        · exact absurd ⟨⟨hk1, hk2, hk3⟩, hf⟩ h1
      obtain ⟨kw, a1, a2, a3, a4, a5⟩ := (titlesShareEvent_iff e1 e2).mp htrue
      exact ⟨⟨kw, a1, a2, a3⟩, ⟨kw, a1, a2, a3, a4, a5⟩⟩
    · intro _
      rfl

/-- Shared helper: jaccard is zero when either set is empty. -/
lemma jaccard_eq_zero_of_empty (a b : List String)
    (h : a.toFinset = ∅ ∨ b.toFinset = ∅) : jaccard a b = 0 := by
  simp only [jaccard]
  exact if_pos h

/-- C3: is_same_event is true exactly when all gates hold: the location
gate (both locations known, meaning not the sentinel Unknown, and unequal,
forces the title override: a shared core keyword present in both keyword
sets and occurring in both lower-cased titles), exact category equality,
Jaccard similarity of the keyword sets at least the configured minimum, and
absolute published-time difference at most the configured window.  The
second conjunct records that jaccard is defined as 0 whenever either
keyword set is empty, so an empty set can never pass a positive minimum. -/
theorem is_same_event_iff :
    (∀ (e1 e2 : Event) (m : ℚ) (d : ℤ),
      isSameEvent e1 e2 m d = true ↔
        (locationGateProp e1 e2
          ∧ e1.category = e2.category
          ∧ m ≤ jaccard e1.eventKeywords e2.eventKeywords
          ∧ |e1.published - e2.published| ≤ d))
  ∧ (∀ a b : List String,
      (a.toFinset = ∅ ∨ b.toFinset = ∅) → jaccard a b = 0) :=
  ⟨isSameEvent_true_iff, jaccard_eq_zero_of_empty⟩

/-- Two concrete reports about one earthquake in differently resolved
locations, used to exercise the title override. -/
def locTok : Event :=
  ⟨"Earthquake hits Tokyo", "Tokyo", "Earthquake", ["earthquake"], 0⟩

/-- The second concrete report of the override scenario. -/
def locOsa : Event :=
  ⟨"Osaka earthquake", "Osaka", "Earthquake", ["earthquake"], 600⟩

/-- Witness for C3: the two override-scenario reports with different known
locations, equal category, full keyword overlap and a 10 minute gap are
judged the same event; and jaccard on an empty keyword set is 0. -/
theorem is_same_event_iff_witness :
    isSameEvent locTok locOsa (2 / 5) 3600 = true
      ∧ jaccard [] ["quake"] = 0 := by
  refine ⟨?_, is_same_event_iff.2 [] ["quake"] (Or.inl rfl)⟩
  apply (is_same_event_iff.1 locTok locOsa (2 / 5) 3600).mpr
  have hjac : jaccard locTok.eventKeywords locOsa.eventKeywords = 1 := by
    simp only [jaccard, locTok, locOsa]
    rw [if_neg (by decide)]
    rw [show ((["earthquake"].toFinset ∩ ["earthquake"].toFinset).card) = 1 from by decide]
    rw [show ((["earthquake"].toFinset ∪ ["earthquake"].toFinset).card) = 1 from by decide]
    norm_num
  refine ⟨?_, rfl, ?_, by decide⟩
  · intro _ _ _
    exact ⟨⟨"earthquake", by decide, by decide, by decide⟩,
      ⟨"earthquake", by decide, by decide, by decide, rfl, rfl⟩⟩
  · rw [hjac]
    norm_num

/-! ## clustering.py : cluster_events -/

/-- One row-placement step of cluster_events: scan the open clusters in
creation order and append the row to the first cluster whose representative
(the first member, cluster[0]) is the same event at the default
parameters; if none matches, open a new cluster at the end. -/
def placeEvent (clusters : List (List Event)) (row : Event) : List (List Event) :=
  match clusters with
  | [] => [[row]]
  | c :: cs =>
    if isSameEventD row c.headI then (c ++ [row]) :: cs
    else c :: placeEvent cs row

/-- cluster_events of clustering.py: fold the rows in input order through
the placement step, starting from no clusters. -/
def clusterEvents (rows : List Event) : List (List Event) :=
  rows.foldl placeEvent []

/-! Concrete borderline reports for the order-dependence scenario: evA and
evB share no keyword, while evC shares half of its keywords with each, so
evC is similar to both while evA and evB are dissimilar. -/

/-- First borderline report. -/
def evA : Event := ⟨"report a", "Unknown", "War", ["k1", "k2"], 0⟩

/-- Second borderline report, dissimilar to the first. -/
def evB : Event := ⟨"report b", "Unknown", "War", ["k3", "k4"], 0⟩

/-- Third report, similar to both of the others. -/
def evC : Event := ⟨"report c", "Unknown", "War", ["k1", "k2", "k3", "k4"], 0⟩

lemma jac_half (a : List String) (h2 : (a.toFinset ∩ evC.eventKeywords.toFinset).card = 2)
    (h4 : (a.toFinset ∪ evC.eventKeywords.toFinset).card = 4)
    (hne : ¬(a.toFinset = ∅ ∨ evC.eventKeywords.toFinset = ∅)) :
    jaccard a evC.eventKeywords = 1 / 2 := by
  simp only [jaccard]
  rw [if_neg hne, h2, h4]
  norm_num

lemma locUnknown_gate (e1 e2 : Event) (h : e1.location = "Unknown") :
    locationGateProp e1 e2 := by
  intro h1
  exact absurd h h1

set_option maxHeartbeats 1600000 in
lemma evSame_CA : isSameEventD evC evA = true := by
  apply (isSameEvent_true_iff evC evA (2 / 5) 3600).mpr
  refine ⟨locUnknown_gate evC evA rfl, rfl, ?_, by decide⟩
  have h : jaccard evC.eventKeywords evA.eventKeywords = 1 / 2 := by
    simp only [jaccard]
    rw [if_neg (by decide)]
    rw [show ((evC.eventKeywords.toFinset ∩ evA.eventKeywords.toFinset).card) = 2 from by decide]
    rw [show ((evC.eventKeywords.toFinset ∪ evA.eventKeywords.toFinset).card) = 4 from by decide]
    norm_num
  rw [h]
  norm_num

set_option maxHeartbeats 1600000 in
lemma evSame_CB : isSameEventD evC evB = true := by
  apply (isSameEvent_true_iff evC evB (2 / 5) 3600).mpr
  refine ⟨locUnknown_gate evC evB rfl, rfl, ?_, by decide⟩
  have h : jaccard evC.eventKeywords evB.eventKeywords = 1 / 2 := by
    simp only [jaccard]
    rw [if_neg (by decide)]
    rw [show ((evC.eventKeywords.toFinset ∩ evB.eventKeywords.toFinset).card) = 2 from by decide]
    rw [show ((evC.eventKeywords.toFinset ∪ evB.eventKeywords.toFinset).card) = 4 from by decide]
    norm_num
  rw [h]
  norm_num

set_option maxHeartbeats 1600000 in
lemma evSame_AC : isSameEventD evA evC = true := by
  apply (isSameEvent_true_iff evA evC (2 / 5) 3600).mpr
  refine ⟨locUnknown_gate evA evC rfl, rfl, ?_, by decide⟩
  have h : jaccard evA.eventKeywords evC.eventKeywords = 1 / 2 := by
    simp only [jaccard]
    rw [if_neg (by decide)]
    rw [show ((evA.eventKeywords.toFinset ∩ evC.eventKeywords.toFinset).card) = 2 from by decide]
    rw [show ((evA.eventKeywords.toFinset ∪ evC.eventKeywords.toFinset).card) = 4 from by decide]
    norm_num
  rw [h]
  norm_num

set_option maxHeartbeats 1600000 in
lemma evSame_BC : isSameEventD evB evC = true := by
  apply (isSameEvent_true_iff evB evC (2 / 5) 3600).mpr
  refine ⟨locUnknown_gate evB evC rfl, rfl, ?_, by decide⟩
  have h : jaccard evB.eventKeywords evC.eventKeywords = 1 / 2 := by
    simp only [jaccard]
    rw [if_neg (by decide)]
    rw [show ((evB.eventKeywords.toFinset ∩ evC.eventKeywords.toFinset).card) = 2 from by decide]
    rw [show ((evB.eventKeywords.toFinset ∪ evC.eventKeywords.toFinset).card) = 4 from by decide]
    norm_num
  rw [h]
  norm_num

set_option maxHeartbeats 1600000 in
set_option maxRecDepth 8000 in
lemma evDiff_BA : isSameEventD evB evA = false := by
  rw [Bool.eq_false_iff]
  intro h
  obtain ⟨-, -, hkw, -⟩ := (isSameEvent_true_iff evB evA (2 / 5) 3600).mp h
  have hz : jaccard evB.eventKeywords evA.eventKeywords = 0 := by
    simp only [jaccard]
    rw [if_neg (by decide)]
    rw [show ((evB.eventKeywords.toFinset ∩ evA.eventKeywords.toFinset).card) = 0 from by decide]
    simp only [Nat.cast_zero, zero_div]
  rw [hz] at hkw
  norm_num at hkw

set_option maxHeartbeats 1600000 in
set_option maxRecDepth 8000 in
lemma evDiff_AB : isSameEventD evA evB = false := by
  rw [Bool.eq_false_iff]
  intro h
  obtain ⟨-, -, hkw, -⟩ := (isSameEvent_true_iff evA evB (2 / 5) 3600).mp h
  have hz : jaccard evA.eventKeywords evB.eventKeywords = 0 := by
    simp only [jaccard]
    rw [if_neg (by decide)]
    rw [show ((evA.eventKeywords.toFinset ∩ evB.eventKeywords.toFinset).card) = 0 from by decide]
    simp only [Nat.cast_zero, zero_div]
  rw [hz] at hkw
  norm_num at hkw

/-! ## First-fit placement and the partition invariant -/

lemma placeEvent_no_match (cs : List (List Event)) (r : Event)
    (h : ∀ c ∈ cs, isSameEventD r c.headI = false) :
    placeEvent cs r = cs ++ [[r]] := by
  induction cs with
  | nil => rfl
  | cons c cs ih =>
    have hc := h c (List.mem_cons_self c cs)
    simp [placeEvent, hc, ih (fun c0 hc0 => h c0 (List.mem_cons_of_mem c hc0))]

lemma placeEvent_first_fit (cs1 : List (List Event)) (c : List Event)
    (cs2 : List (List Event)) (r : Event)
    (h1 : ∀ c0 ∈ cs1, isSameEventD r c0.headI = false)
    (h2 : isSameEventD r c.headI = true) :
    placeEvent (cs1 ++ c :: cs2) r = cs1 ++ (c ++ [r]) :: cs2 := by
  induction cs1 with
  | nil => simp [placeEvent, h2]
  | cons c0 cs1 ih =>
    have hc0 := h1 c0 (List.mem_cons_self c0 cs1)
    simp [placeEvent, hc0, ih (fun d hd => h1 d (List.mem_cons_of_mem c0 hd))]

lemma clusterABC : clusterEvents [evA, evB, evC] = [[evA, evC], [evB]] := by
  simp [clusterEvents, placeEvent, evDiff_BA, evSame_CA]

lemma clusterCAB : clusterEvents [evC, evA, evB] = [[evC, evA, evB]] := by
  simp [clusterEvents, placeEvent, evSame_AC, evSame_BC]

/-- The invariant maintained by cluster_events: every open cluster is
non-empty and all its members after the first satisfy is_same_event
against the first member, the representative. -/
def clusterInv (cs : List (List Event)) : Prop :=
  ∀ c ∈ cs, c ≠ [] ∧ ∀ e ∈ c.tail, isSameEventD e c.headI = true

lemma headI_append (c l : List Event) (h : c ≠ []) :
    (c ++ l).headI = c.headI := by
  cases c with
  | nil => exact absurd rfl h
  | cons x xs => rfl

lemma tail_append_of_ne (c l : List Event) (h : c ≠ []) :
    (c ++ l).tail = c.tail ++ l := by
  cases c with
  | nil => exact absurd rfl h
  | cons x xs => rfl

lemma placeEvent_inv (cs : List (List Event)) (r : Event) (h : clusterInv cs) :
    clusterInv (placeEvent cs r) := by
  induction cs with
  | nil =>
    intro c hc
    have hceq : c = [r] := List.mem_singleton.mp hc
    subst hceq
    exact ⟨by simp, by simp⟩
  | cons c0 cs ih =>
    by_cases h0 : isSameEventD r c0.headI = true
    · intro c hc
      rw [show placeEvent (c0 :: cs) r = (c0 ++ [r]) :: cs from by
        simp [placeEvent, h0]] at hc
      rcases List.mem_cons.mp hc with hc | hc
      · subst hc
        have hc0 := h c0 (List.mem_cons_self c0 cs)
        refine ⟨by simp, ?_⟩
        rw [tail_append_of_ne c0 [r] hc0.1, headI_append c0 [r] hc0.1]
        intro e he
        rcases List.mem_append.mp he with he | he
        · exact hc0.2 e he
        · rw [List.mem_singleton.mp he]
          exact h0
      · exact h c (List.mem_cons_of_mem c0 hc)
    · intro c hc
      rw [show placeEvent (c0 :: cs) r = c0 :: placeEvent cs r from by
        simp [placeEvent, h0]] at hc
      rcases List.mem_cons.mp hc with hc | hc
      · subst hc
        exact h c (List.mem_cons_self c cs)
      · exact ih (fun d hd => h d (List.mem_cons_of_mem c0 hd)) c hc

lemma placeEvent_flatten (cs : List (List Event)) (r : Event) :
    (placeEvent cs r).flatten.Perm (cs.flatten ++ [r]) := by
  induction cs with
  | nil =>
    simp [placeEvent]
  | cons c0 cs ih =>
    by_cases h0 : isSameEventD r c0.headI = true
    · rw [show placeEvent (c0 :: cs) r = (c0 ++ [r]) :: cs from by
        simp [placeEvent, h0]]
      simp only [List.flatten_cons, List.append_assoc]
      exact List.Perm.append_left c0 List.perm_append_comm
    · rw [show placeEvent (c0 :: cs) r = c0 :: placeEvent cs r from by
        simp [placeEvent, h0]]
      simp only [List.flatten_cons, List.append_assoc]
      exact List.Perm.append_left c0 ih

lemma foldl_place_inv (rows : List Event) :
    ∀ cs, clusterInv cs → clusterInv (rows.foldl placeEvent cs) := by
  induction rows with
  | nil => intro cs h; exact h
  | cons r rows ih =>
    intro cs h
    exact ih (placeEvent cs r) (placeEvent_inv cs r h)

lemma foldl_place_flatten (rows : List Event) :
    ∀ cs, (rows.foldl placeEvent cs).flatten.Perm (cs.flatten ++ rows) := by
  induction rows with
  | nil => intro cs; simp
  | cons r rows ih =>
    intro cs
    rw [List.foldl_cons]
    have h1 := ih (placeEvent cs r)
    have h2 := (placeEvent_flatten cs r).append_right rows
    have h3 : (cs.flatten ++ [r]) ++ rows = cs.flatten ++ r :: rows := by simp
    exact h1.trans (h3 ▸ h2)

/-- C6: cluster_events is first-fit and order-dependent.  The first two
conjuncts characterise one placement step: a row matching no open
representative opens a new cluster at the end, and a row is appended to the
first matching cluster regardless of later matches.  The remaining
conjuncts give a concrete three-report instance in which evC is
borderline-similar to both evA and evB while evA and evB are dissimilar:
in input order evA, evB, evC the result is the two clusters
[[evA, evC], [evB]] (evC joins the first matching cluster although the
second also matches), while the permutation evC, evA, evB yields the
single cluster [[evC, evA, evB]] — the two orderings of the same reports
produce different cluster counts. -/
theorem cluster_events_first_fit_order_dependent :
    (∀ (cs : List (List Event)) (r : Event),
        (∀ c ∈ cs, isSameEventD r c.headI = false) → placeEvent cs r = cs ++ [[r]])
  ∧ (∀ (cs1 : List (List Event)) (c : List Event) (cs2 : List (List Event)) (r : Event),
        (∀ c0 ∈ cs1, isSameEventD r c0.headI = false) →
        isSameEventD r c.headI = true →
        placeEvent (cs1 ++ c :: cs2) r = cs1 ++ (c ++ [r]) :: cs2)
  ∧ isSameEventD evC evA = true
  ∧ isSameEventD evC evB = true
  ∧ isSameEventD evB evA = false
  ∧ clusterEvents [evA, evB, evC] = [[evA, evC], [evB]]
  ∧ (clusterEvents [evA, evB, evC]).length = 2
  ∧ clusterEvents [evC, evA, evB] = [[evC, evA, evB]]
  ∧ (clusterEvents [evC, evA, evB]).length = 1 :=
  ⟨placeEvent_no_match, placeEvent_first_fit, evSame_CA, evSame_CB, evDiff_BA,
   clusterABC, by rw [clusterABC]; rfl, clusterCAB, by rw [clusterCAB]; rfl⟩

/-- Witness for C6: a row dissimilar to the only open representative opens
a new cluster at the end. -/
theorem cluster_events_first_fit_order_dependent_witness :
    placeEvent [[evB]] evA = [[evB], [evA]] :=
  cluster_events_first_fit_order_dependent.1 [[evB]] evA (by
    intro c hc
    rw [List.mem_singleton.mp hc]
    exact evDiff_AB)

/-- C9: the clusters returned by cluster_events partition the input: every
cluster is non-empty and each member after the first satisfies
is_same_event against the first member (the representative it was compared
to when placed); the concatenation of the clusters is a permutation of the
input rows, so each input report lands in exactly one cluster; and the
cluster sizes sum to the number of input reports. -/
theorem cluster_events_partition (rows : List Event) :
    (∀ c ∈ clusterEvents rows, c ≠ [] ∧ ∀ e ∈ c.tail, isSameEventD e c.headI = true)
  ∧ (clusterEvents rows).flatten.Perm rows
  ∧ ((clusterEvents rows).map List.length).sum = rows.length := by
  have hinv : clusterInv (clusterEvents rows) :=
    foldl_place_inv rows [] (fun c hc => absurd hc (List.not_mem_nil c))
  have hperm : (clusterEvents rows).flatten.Perm rows := by
    have h := foldl_place_flatten rows []
    simpa [clusterEvents] using h
  refine ⟨hinv, hperm, ?_⟩
  rw [← List.length_flatten]
  exact hperm.length_eq

/-- Witness for C9: in the two-report run evA, evC the two reports land in
one cluster whose later member evC satisfies is_same_event against the
representative evA. -/
theorem cluster_events_partition_witness :
    isSameEventD evC (([evA, evC] : List Event).headI) = true := by
  have hceq : clusterEvents [evA, evC] = [[evA, evC]] := by
    simp [clusterEvents, placeEvent, evSame_CA]
  have hmem : [evA, evC] ∈ clusterEvents [evA, evC] := by
    rw [hceq]
    exact List.mem_singleton.mpr rfl
  exact ((cluster_events_partition [evA, evC]).1 [evA, evC] hmem).2 evC (by simp)

/-! ## analyzer.py : get_coordinates and the location cache -/

/-- Outcome of one call of the external geocoder: coordinates found, no
result, or a timeout or any other exception (both caught by the source). -/
inductive GeoResult where
  | found : ℚ → ℚ → GeoResult
  | notFound : GeoResult
  | failure : GeoResult
  deriving DecidableEq

/-- The LocationCache lookup of get_coordinates: first row whose name
matches exactly. -/
def lookupCache (cache : List (String × ℚ × ℚ)) (name : String) :
    Option (ℚ × ℚ) :=
  (cache.find? (fun p => p.1 == name)).map (fun p => p.2)

/-- Result of one get_coordinates call: optional coordinates, the cache
rows after the call, and whether the cache and the geocoder were reached
(the short-circuit of the source returns before either). -/
structure GeoOutcome where
  lat : Option ℚ
  lon : Option ℚ
  cache : List (String × ℚ × ℚ)
  cacheConsulted : Bool
  geocoderConsulted : Bool
  deriving DecidableEq

/-- get_coordinates of analyzer.py: an empty or Unknown name
short-circuits to null coordinates without touching cache or geocoder;
otherwise the cache is consulted and, on a miss, the geocoder; a found
location is committed to the cache; a timeout or any other geocoder
failure is caught, logged and degraded to null coordinates.  The function
is total: no branch propagates an exception to the caller. -/
def getCoordinates (geocoder : String → GeoResult)
    (cache : List (String × ℚ × ℚ)) (name : String) : GeoOutcome :=
  if name = "" ∨ name = "Unknown" then
    ⟨none, none, cache, false, false⟩
  else
    match lookupCache cache name with
    | some (la, lo) => ⟨some la, some lo, cache, true, false⟩
    | none =>
      match geocoder name with
      | GeoResult.found la lo =>
          ⟨some la, some lo, cache ++ [(name, la, lo)], true, true⟩
      | GeoResult.notFound => ⟨none, none, cache, true, true⟩
      | GeoResult.failure => ⟨none, none, cache, true, true⟩

lemma getCoordinates_unknown (g : String → GeoResult)
    (cache : List (String × ℚ × ℚ)) :
    getCoordinates g cache "Unknown" = ⟨none, none, cache, false, false⟩ := by
  unfold getCoordinates
  rw [if_pos (Or.inr rfl)]

lemma getCoordinates_empty (g : String → GeoResult)
    (cache : List (String × ℚ × ℚ)) :
    getCoordinates g cache "" = ⟨none, none, cache, false, false⟩ := by
  unfold getCoordinates
  rw [if_pos (Or.inl rfl)]

/-! ## analyzer.py : extract_free_keywords -/

/-- A token of the spaCy stream with the attributes read by
extract_free_keywords; text is the surface form, whose character count is
what len(token) returns in the source. -/
structure SpacyToken where
  text : String
  lemma_ : String
  pos_ : String
  isStop : Bool
  likeUrl : Bool
  likeEmail : Bool
  isAlpha : Bool
  deriving DecidableEq

/-- The per-token filter of extract_free_keywords: noun or proper noun,
not a stop word, URL or email, alphabetic, and strictly longer than two
characters. -/
def tokenKeep (t : SpacyToken) : Bool :=
  (t.pos_ == "NOUN" || t.pos_ == "PROPN") && !t.isStop && !t.likeUrl
    && !t.likeEmail && t.isAlpha && decide (2 < t.text.length)

/-- dict.fromkeys deduplication: keep the first occurrence of every key,
preserving order. -/
def dedupKeepFirstAux (seen : List String) : List String → List String
  | [] => []
  | x :: xs =>
    if x ∈ seen then dedupKeepFirstAux seen xs
    else x :: dedupKeepFirstAux (x :: seen) xs

/-- Deduplication keeping first occurrences, starting from nothing seen. -/
def dedupKeepFirst (l : List String) : List String := dedupKeepFirstAux [] l

/-- extract_free_keywords of analyzer.py, over the token stream the
external NLP collaborator produces for the lower-cased text: filter the
tokens, take their lemmas, deduplicate keeping first occurrences and
truncate to top_k (the source default is 10). -/
def extractFreeKeywords (doc : List SpacyToken) (topK : Nat) : List String :=
  (dedupKeepFirst ((doc.filter tokenKeep).map (fun t => t.lemma_))).take topK

/-! ## analyzer.py : scan_feed -/

/-- One RSS entry as read by scan_feed. -/
structure FeedEntry where
  title : String
  summary : String
  description : String
  link : String
  deriving DecidableEq

/-- extract_event_keywords of analyzer.py: every category-lexicon keyword
found in the lower-cased text; the list(set(...)) deduplication of the
source is modelled keeping first occurrences (the set of elements is the
same; the iteration order of the Python set object is unspecified). -/
def extractEventKeywords (text : String) : List String :=
  dedupKeepFirst (flatCategoryKeywords.filter
    (fun kw => containsL (lowerData text) kw.data))

/-- A persisted CrisisEvent row of database.py, as filled by scan_feed.
The published_at clock field is not modelled. -/
structure StoredEvent where
  id : String
  title : String
  source : String
  severity : ℚ
  category : String
  link : String
  location : String
  lat : Option ℚ
  lon : Option ℚ
  eventKeywords : List String
  freeKeywords : List String
  deriving DecidableEq

/-- Processing of one feed entry inside scan_feed: skip when an event with
the same derived id is already stored (the MD5 digest of the title is
modelled by the title itself, a deterministic injective stand-in); build
the text as title, comma, summary, space, description; score it; persist
the event only when the severity strictly exceeds the threshold, resolving
the location name and coordinates in that case.  The retention cleanup at
the end of scan_feed only deletes rows and is not modelled. -/
def processEntry (extractLocation : String → String)
    (geocoder : String → GeoResult) (tokensOf : String → List SpacyToken)
    (srcName : String) (w : ℚ)
    (db : List StoredEvent) (cache : List (String × ℚ × ℚ))
    (entry : FeedEntry) : List StoredEvent × List (String × ℚ × ℚ) :=
  let eid := entry.title
  if db.any (fun ev => ev.id == eid) then (db, cache)
  else
    let text := entry.title ++ ", " ++ entry.summary ++ " " ++ entry.description
    let eventKws := extractEventKeywords text
    let freeKws := extractFreeKeywords (tokensOf text) 10
    let category := detectCategory text
    let severity := computeSeverity entry.title text w
    if ANALYZER_SEVERITY_THRESHOLD < severity then
      let locName := extractLocation text
      let geo := getCoordinates geocoder cache locName
      (db ++ [⟨eid, entry.title, srcName, severity, category, entry.link,
               locName, geo.lat, geo.lon, eventKws, freeKws⟩], geo.cache)
    else (db, cache)

/-- scan_feed of analyzer.py over the configured sources: fold every
source and, inside it, every entry through processEntry, starting from the
stored events and cache rows present before the run. -/
def scanFeed (extractLocation : String → String)
    (geocoder : String → GeoResult) (tokensOf : String → List SpacyToken)
    (feeds : List (String × ℚ × List FeedEntry))
    (db0 : List StoredEvent) (cache0 : List (String × ℚ × ℚ)) :
    List StoredEvent × List (String × ℚ × ℚ) :=
  feeds.foldl
    (fun acc feed =>
      feed.2.2.foldl
        (fun acc2 entry =>
          processEntry extractLocation geocoder tokensOf feed.1 feed.2.1
            acc2.1 acc2.2 entry)
        acc)
    (db0, cache0)

/-! ## Threshold-gate and location invariants of the ingestion loop -/

lemma processEntry_sev_inv (el : String → String) (g : String → GeoResult)
    (tk : String → List SpacyToken) (src : String) (w : ℚ)
    (db : List StoredEvent) (cache : List (String × ℚ × ℚ)) (entry : FeedEntry)
    (h : ∀ ev ∈ db, ANALYZER_SEVERITY_THRESHOLD < ev.severity) :
    ∀ ev ∈ (processEntry el g tk src w db cache entry).1,
      ANALYZER_SEVERITY_THRESHOLD < ev.severity := by
  intro ev hev
  simp only [processEntry] at hev
  split_ifs at hev with h1 h2
  · exact h ev hev
  · rcases List.mem_append.mp hev with hm | hm
    · exact h ev hm
    · rw [List.mem_singleton.mp hm]
      exact h2
  · exact h ev hev

lemma entriesFold_sev (el : String → String) (g : String → GeoResult)
    (tk : String → List SpacyToken) (src : String) (w : ℚ)
    (entries : List FeedEntry) :
    ∀ acc : List StoredEvent × List (String × ℚ × ℚ),
      (∀ ev ∈ acc.1, ANALYZER_SEVERITY_THRESHOLD < ev.severity) →
      ∀ ev ∈ (entries.foldl
          (fun acc2 entry => processEntry el g tk src w acc2.1 acc2.2 entry)
          acc).1,
        ANALYZER_SEVERITY_THRESHOLD < ev.severity := by
  induction entries with
  | nil => intro acc h; exact h
  | cons e es ih =>
    intro acc h
    rw [List.foldl_cons]
    exact ih (processEntry el g tk src w acc.1 acc.2 e)
      (processEntry_sev_inv el g tk src w acc.1 acc.2 e h)

lemma feedsFold_sev (el : String → String) (g : String → GeoResult)
    (tk : String → List SpacyToken)
    (feeds : List (String × ℚ × List FeedEntry)) :
    ∀ acc : List StoredEvent × List (String × ℚ × ℚ),
      (∀ ev ∈ acc.1, ANALYZER_SEVERITY_THRESHOLD < ev.severity) →
      ∀ ev ∈ (feeds.foldl
          (fun acc feed => feed.2.2.foldl
            (fun acc2 entry => processEntry el g tk feed.1 feed.2.1 acc2.1 acc2.2 entry)
            acc)
          acc).1,
        ANALYZER_SEVERITY_THRESHOLD < ev.severity := by
  induction feeds with
  | nil => intro acc h; exact h
  | cons f fs ih =>
    intro acc h
    rw [List.foldl_cons]
    exact ih _ (entriesFold_sev el g tk f.1 f.2.1 f.2.2 acc h)

/-- C4: a scanned entry is persisted only when its computed severity
strictly exceeds the configured ingestion threshold (4 in config.py): an
entry whose severity does not exceed the threshold leaves both the stored
events and the cache untouched, and, starting from any store in which all
events exceed the threshold (the empty store included), every event stored
after a scan_feed run exceeds the threshold in force at its creation. -/
theorem scan_feed_threshold_gate :
    (∀ (el : String → String) (g : String → GeoResult)
        (tk : String → List SpacyToken) (src : String) (w : ℚ)
        (db : List StoredEvent) (cache : List (String × ℚ × ℚ))
        (entry : FeedEntry),
        computeSeverity entry.title
            (entry.title ++ ", " ++ entry.summary ++ " " ++ entry.description) w
          ≤ ANALYZER_SEVERITY_THRESHOLD →
        processEntry el g tk src w db cache entry = (db, cache))
  ∧ (∀ (el : String → String) (g : String → GeoResult)
        (tk : String → List SpacyToken)
        (feeds : List (String × ℚ × List FeedEntry))
        (db0 : List StoredEvent) (cache0 : List (String × ℚ × ℚ)),
        (∀ ev ∈ db0, ANALYZER_SEVERITY_THRESHOLD < ev.severity) →
        ∀ ev ∈ (scanFeed el g tk feeds db0 cache0).1,
          ANALYZER_SEVERITY_THRESHOLD < ev.severity) := by
  constructor
  · intro el g tk src w db cache entry h
    simp only [processEntry]
    split_ifs with h1 h2
    · rfl
    · exact absurd h2 (not_lt.mpr h)
    · rfl
  · intro el g tk feeds db0 cache0 h
    exact feedsFold_sev el g tk feeds (db0, cache0) h

lemma processEntry_loc_inv (el : String → String) (g : String → GeoResult)
    (tk : String → List SpacyToken) (src : String) (w : ℚ)
    (db : List StoredEvent) (cache : List (String × ℚ × ℚ)) (entry : FeedEntry)
    (h : ∀ ev ∈ db, ev.location = "Unknown" → ev.lat = none ∧ ev.lon = none) :
    ∀ ev ∈ (processEntry el g tk src w db cache entry).1,
      ev.location = "Unknown" → ev.lat = none ∧ ev.lon = none := by
  intro ev hev hloc
  simp only [processEntry] at hev
  split_ifs at hev with h1 h2
  · exact h ev hev hloc
  · rcases List.mem_append.mp hev with hm | hm
    · exact h ev hm hloc
    · rw [List.mem_singleton.mp hm] at hloc ⊢
      have hname : el (entry.title ++ ", " ++ entry.summary ++ " " ++ entry.description)
          = "Unknown" := hloc
      constructor <;> simp only [hname, getCoordinates_unknown]
  · exact h ev hev hloc

lemma entriesFold_loc (el : String → String) (g : String → GeoResult)
    (tk : String → List SpacyToken) (src : String) (w : ℚ)
    (entries : List FeedEntry) :
    ∀ acc : List StoredEvent × List (String × ℚ × ℚ),
      (∀ ev ∈ acc.1, ev.location = "Unknown" → ev.lat = none ∧ ev.lon = none) →
      ∀ ev ∈ (entries.foldl
          (fun acc2 entry => processEntry el g tk src w acc2.1 acc2.2 entry)
          acc).1,
        ev.location = "Unknown" → ev.lat = none ∧ ev.lon = none := by
  induction entries with
  | nil => intro acc h; exact h
  | cons e es ih =>
    intro acc h
    rw [List.foldl_cons]
    exact ih (processEntry el g tk src w acc.1 acc.2 e)
      (processEntry_loc_inv el g tk src w acc.1 acc.2 e h)

lemma feedsFold_loc (el : String → String) (g : String → GeoResult)
    (tk : String → List SpacyToken)
    (feeds : List (String × ℚ × List FeedEntry)) :
    ∀ acc : List StoredEvent × List (String × ℚ × ℚ),
      (∀ ev ∈ acc.1, ev.location = "Unknown" → ev.lat = none ∧ ev.lon = none) →
      ∀ ev ∈ (feeds.foldl
          (fun acc feed => feed.2.2.foldl
            (fun acc2 entry => processEntry el g tk feed.1 feed.2.1 acc2.1 acc2.2 entry)
            acc)
          acc).1,
        ev.location = "Unknown" → ev.lat = none ∧ ev.lon = none := by
  induction feeds with
  | nil => intro acc h; exact h
  | cons f fs ih =>
    intro acc h
    rw [List.foldl_cons]
    exact ih _ (entriesFold_loc el g tk f.1 f.2.1 f.2.2 acc h)

/-- C7: location resolution never propagates a failure.  For the sentinel
Unknown or an empty name, get_coordinates returns null coordinates with
the cache unchanged and neither the cache nor the geocoder consulted (the
short-circuit); on a cache miss followed by a geocoder timeout or any
other failure it returns null coordinates with the cache unchanged, so the
report is kept un-located and ingestion is never aborted (the embedded
function is total); consequently, starting from any store satisfying the
invariant, every event stored by scan_feed whose location is Unknown has
both coordinates absent. -/
theorem get_coordinates_resilient :
    (∀ (g : String → GeoResult) (cache : List (String × ℚ × ℚ)),
        getCoordinates g cache "Unknown" = ⟨none, none, cache, false, false⟩
      ∧ getCoordinates g cache "" = ⟨none, none, cache, false, false⟩)
  ∧ (∀ (g : String → GeoResult) (cache : List (String × ℚ × ℚ)) (name : String),
        name ≠ "" → name ≠ "Unknown" →
        lookupCache cache name = none → g name = GeoResult.failure →
        getCoordinates g cache name = ⟨none, none, cache, true, true⟩)
  ∧ (∀ (el : String → String) (g : String → GeoResult)
        (tk : String → List SpacyToken)
        (feeds : List (String × ℚ × List FeedEntry))
        (db0 : List StoredEvent) (cache0 : List (String × ℚ × ℚ)),
        (∀ ev ∈ db0, ev.location = "Unknown" → ev.lat = none ∧ ev.lon = none) →
        ∀ ev ∈ (scanFeed el g tk feeds db0 cache0).1,
          ev.location = "Unknown" → ev.lat = none ∧ ev.lon = none) := by
  refine ⟨fun g cache => ⟨getCoordinates_unknown g cache, getCoordinates_empty g cache⟩,
    ?_, ?_⟩
  · intro g cache name h1 h2 h3 h4
    unfold getCoordinates
    have hne : ¬(name = "" ∨ name = "Unknown") := by
      rintro (he | hu)
      · exact h1 he
      · exact h2 hu
    rw [if_neg hne, h3, h4]
  · intro el g tk feeds db0 cache0 h
    exact feedsFold_loc el g tk feeds (db0, cache0) h

/-- A geocoder that always fails, for the resilience witness. -/
def geoFail : String → GeoResult := fun _ => GeoResult.failure

/-- Witness for C7: on an empty cache and an always-failing geocoder, a
known location name degrades to null coordinates with the cache unchanged,
after consulting both collaborators. -/
theorem get_coordinates_resilient_witness :
    getCoordinates geoFail [] "Paris" = ⟨none, none, [], true, true⟩ :=
  get_coordinates_resilient.2.1 geoFail [] "Paris" (by decide) (by decide) rfl rfl

/-! ## A concrete ingestion run for the threshold-gate witness -/

lemma sev_quake : computeSeverity "earthquake" "earthquake,  " 1 = 10 := by
  rw [computeSeverity_decomp]
  have hW : severityKeywordSum (lowerData "earthquake,  ") = 8 := by
    unfold severityKeywordSum
    rw [show SEVERITY_WEIGHTS.filter
        (fun p => containsL (lowerData "earthquake,  ") p.1.data)
        = [("earthquake", (8 : ℚ))] from rfl]
    norm_num
  have hC : contextModifierSum (lowerData "earthquake,  ") = 0 := by
    unfold contextModifierSum
    rw [show CONTEXT_KEYWORDS.filter
        (fun p => containsL (lowerData "earthquake,  ") p.1.data) = [] from rfl]
    norm_num
  have hB : titleBonus (lowerData "earthquake") = 2 := by
    unfold titleBonus
    rw [show (flatCategoryKeywords.any
        (fun kw => containsL (lowerData "earthquake") kw.data)) = true from rfl]
    norm_num
  have hV : casualtySum (lowerData "earthquake,  ") = 0 := by
    unfold casualtySum
    rw [show scanVictims (lowerData "earthquake,  ") = [] from by decide]
    simp
  rw [hW, hC, hB, hV]
  norm_num [round2, roundHalfEven]

/-- The feed entry of the concrete run. -/
def entQuake : FeedEntry := ⟨"earthquake", "", "", ""⟩

/-- A location extractor that finds nothing, returning the sentinel. -/
def elUnknown : String → String := fun _ => "Unknown"

/-- An NLP collaborator producing no tokens. -/
def tokensNone : String → List SpacyToken := fun _ => []

/-- The event record the concrete run is expected to persist. -/
def storedQuake : StoredEvent :=
  ⟨"earthquake", "earthquake", "S", 10, "Earthquake", "", "Unknown",
   none, none, ["earthquake"], []⟩

set_option maxHeartbeats 1600000 in
lemma scanQuake :
    scanFeed elUnknown geoFail tokensNone [("S", 1, [entQuake])] [] []
      = ([storedQuake], []) := by
  show processEntry elUnknown geoFail tokensNone "S" 1 [] [] entQuake
      = ([storedQuake], [])
  simp only [processEntry, entQuake, List.any_nil, Bool.false_eq_true, if_false]
  rw [show ("earthquake" ++ ", " ++ "" ++ " " ++ "" : String) = "earthquake,  " from rfl]
  rw [sev_quake]
  rw [if_pos (show ANALYZER_SEVERITY_THRESHOLD < 10 by
    norm_num [ANALYZER_SEVERITY_THRESHOLD])]
  rfl

/-- Witness for C4: the concrete run persists exactly the earthquake
event, and its stored severity 10 exceeds the threshold 4. -/
theorem scan_feed_threshold_gate_witness :
    ANALYZER_SEVERITY_THRESHOLD < storedQuake.severity :=
  scan_feed_threshold_gate.2 elUnknown geoFail tokensNone
    [("S", 1, [entQuake])] [] []
    (fun ev hev => absurd hev (List.not_mem_nil ev)) storedQuake
    (by rw [congrArg Prod.fst scanQuake]; exact List.mem_singleton.mpr rfl)

/-! ## Properties of extract_free_keywords -/

lemma dedupKeepFirstAux_sublist :
    ∀ (l seen : List String), (dedupKeepFirstAux seen l).Sublist l := by
  intro l
  induction l with
  | nil => intro seen; exact List.Sublist.refl []
  | cons x xs ih =>
    intro seen
    by_cases hx : x ∈ seen
    · simp only [dedupKeepFirstAux, if_pos hx]
      exact (ih seen).cons x
    · simp only [dedupKeepFirstAux, if_neg hx]
      exact (ih (x :: seen)).cons₂ x

lemma dedupKeepFirstAux_nodup :
    ∀ (l seen : List String),
      (dedupKeepFirstAux seen l).Nodup
        ∧ ∀ x ∈ dedupKeepFirstAux seen l, x ∉ seen := by
  intro l
  induction l with
  | nil =>
    intro seen
    exact ⟨List.nodup_nil, by simp [dedupKeepFirstAux]⟩
  | cons x xs ih =>
    intro seen
    by_cases hx : x ∈ seen
    · simp only [dedupKeepFirstAux, if_pos hx]
      exact ih seen
    · simp only [dedupKeepFirstAux, if_neg hx]
      obtain ⟨hnd, hnotin⟩ := ih (x :: seen)
      refine ⟨List.nodup_cons.mpr ⟨?_, hnd⟩, ?_⟩
      · intro hxmem
        exact hnotin x hxmem (List.mem_cons_self x seen)
      · intro y hy
        rcases List.mem_cons.mp hy with hy | hy
        · subst hy; exact hx
        · intro hyseen
          exact hnotin y hy (List.mem_cons_of_mem x hyseen)

/-- C10: extract_free_keywords returns at most top_k lemmas (the source
default is 10), without duplicates, as an order-preserving subsequence of
the filtered lemma stream (deduplication keeps first occurrences), and
every returned lemma comes from a token that passed every filter — noun or
proper noun, no stop word, URL or email, alphabetic — and in particular
from a token strictly longer than 2 characters, the undocumented length
filter.  The last conjunct packages the same evidence as a Boolean scan of
the document. -/
theorem extract_free_keywords_spec (doc : List SpacyToken) (k : Nat) :
    (extractFreeKeywords doc k).length ≤ k
  ∧ (extractFreeKeywords doc k).Nodup
  ∧ (extractFreeKeywords doc k).Sublist ((doc.filter tokenKeep).map (fun t => t.lemma_))
  ∧ (∀ w ∈ extractFreeKeywords doc k,
      ∃ t ∈ doc, t.lemma_ = w ∧ tokenKeep t = true ∧ 2 < t.text.length)
  ∧ (∀ w ∈ extractFreeKeywords doc k,
      doc.any (fun t => t.lemma_ == w && tokenKeep t) = true) := by
  have hsubd : (dedupKeepFirst ((doc.filter tokenKeep).map (fun t => t.lemma_))).Sublist
      ((doc.filter tokenKeep).map (fun t => t.lemma_)) :=
    dedupKeepFirstAux_sublist _ []
  have hsub : (extractFreeKeywords doc k).Sublist
      ((doc.filter tokenKeep).map (fun t => t.lemma_)) :=
    (List.take_sublist k _).trans hsubd
  have hmemtok : ∀ w ∈ extractFreeKeywords doc k,
      ∃ t ∈ doc, t.lemma_ = w ∧ tokenKeep t = true ∧ 2 < t.text.length := by
    intro w hw
    have hw2 : w ∈ (doc.filter tokenKeep).map (fun t => t.lemma_) := hsub.subset hw
    obtain ⟨t, htmem, hteq⟩ := List.mem_map.mp hw2
    obtain ⟨htdoc, htkeep⟩ := List.mem_filter.mp htmem
    have hlen : 2 < t.text.length := by
      have hk := htkeep
      unfold tokenKeep at hk
      simp only [Bool.and_eq_true, decide_eq_true_eq] at hk
      exact hk.2
    exact ⟨t, htdoc, hteq, htkeep, hlen⟩
  refine ⟨?_, ?_, hsub, hmemtok, ?_⟩
  · unfold extractFreeKeywords
    exact List.length_take_le k _
  · have hnd := (dedupKeepFirstAux_nodup
      ((doc.filter tokenKeep).map (fun t => t.lemma_)) []).1
    exact List.Nodup.sublist (List.take_sublist k _) hnd
  · intro w hw
    obtain ⟨t, htdoc, hteq, htkeep, -⟩ := hmemtok w hw
    refine List.any_eq_true.mpr ⟨t, htdoc, ?_⟩
    rw [Bool.and_eq_true]
    exact ⟨beq_iff_eq.mpr hteq, htkeep⟩

/-- A noun token of 11 characters lemmatised to earthquake, for the
free-keyword witness. -/
def tokQuake : SpacyToken :=
  ⟨"earthquakes", "earthquake", "NOUN", false, false, false, true⟩

/-- Witness for C10: the lemma earthquake returned on the one-token stream
is backed by a token passing every filter, including the length filter. -/
theorem extract_free_keywords_spec_witness :
    ([tokQuake].any (fun t => t.lemma_ == "earthquake" && tokenKeep t)) = true :=
  (extract_free_keywords_spec [tokQuake] 10).2.2.2.2 "earthquake" (by decide)
